import Mathlib

/-!
Verification of the jobTracker repository: a shallow embedding of the
HTTP route handlers (`GET`/`POST` of `/api/jobs` and `PATCH`/`DELETE` of
`/api/jobs/[id]`) and of the client page's state logic (`moveJob`,
`stats`), together with theorems settling the specification's claims.

Modelling conventions:
- A JSON payload field that is `undefined` / `null` / a string is modelled
  as `Option (Option String)` (`none` = absent, `some none` = null,
  `some (some s)` = the string `s`).  All claims concern string-or-null
  payloads, so other JS value shapes are out of scope of the embedding.
- The Prisma store is a list of `Job` rows; `prisma.job.update` /
  `prisma.job.delete` throw when the id is missing, which the embedding
  renders as the `none` case that the route's catch-all turns into a
  500 response, exactly as in the source.
- JS `Date` values are carried as the raw string handed to `new Date(...)`;
  no claim depends on calendar arithmetic.  Timestamps (`createdAt`,
  `updatedAt`) are `Nat`.
- JS `String.prototype.trim`/`toUpperCase`/`toLowerCase` are modelled by
  `jsTrim` (strip surrounding whitespace) and character-wise ASCII case
  mapping; all enum and sort keywords involved are ASCII.
-/

/-- The five pipeline stages of the Prisma `JobStatus` enum. -/
inductive JobStatus
  | SAVED
  | APPLIED
  | INTERVIEW
  | OFFER
  | REJECTED
deriving DecidableEq, Repr

/-- A row of the `Job` table (also the client-side `Job` type). -/
structure Job where
  id : String
  company : String
  role : String
  status : JobStatus
  location : Option String
  url : Option String
  salary : Option String
  notes : Option String
  nextAction : Option String
  nextActionAt : Option String
  createdAt : Nat
  updatedAt : Nat
deriving DecidableEq, Repr

/-- The whitespace characters stripped by `String.prototype.trim` (the
ASCII ones; the full JS set also has Unicode spaces, irrelevant here). -/
def isWsChar (c : Char) : Bool := c = ' ' || c = '\t' || c = '\n' || c = '\r'

/-- Drop leading whitespace from a character list. -/
def dropLeadWs : List Char → List Char
  | [] => []
  | c :: t => if isWsChar c then dropLeadWs t else c :: t

/-- `String.prototype.trim`: strip leading and trailing whitespace. -/
def jsTrim (s : String) : String :=
  String.mk (dropLeadWs (dropLeadWs s.data.reverse).reverse)

/-- ASCII uppercase of one character. -/
def upChar (c : Char) : Char :=
  if 97 ≤ c.toNat && c.toNat ≤ 122 then Char.ofNat (c.toNat - 32) else c

/-- ASCII lowercase of one character. -/
def downChar (c : Char) : Char :=
  if 65 ≤ c.toNat && c.toNat ≤ 90 then Char.ofNat (c.toNat + 32) else c

/-- Character-wise uppercase, modelling `String.prototype.toUpperCase` on
the ASCII inputs the routes compare against. -/
def upperStr (s : String) : String := String.mk (s.data.map upChar)

/-- Character-wise lowercase used for case-insensitive matching. -/
def lowerChars (s : String) : List Char := s.data.map downChar

/-- `String(x ?? "")` applied to an absent/null/string JS value. -/
def jsStr (v : Option (Option String)) : String := (v.getD none).getD ""

/-- `String(x ?? "")` applied to a null-or-string JS value. -/
def jsStrN (w : Option String) : String := w.getD ""

/-- Recognize one of the five enum member strings, modelling
`Object.values(JobStatus).includes(v)` followed by the cast to
`JobStatus`. -/
def statusOfString (v : String) : Option JobStatus :=
  if v = "SAVED" then some .SAVED
  else if v = "APPLIED" then some .APPLIED
  else if v = "INTERVIEW" then some .INTERVIEW
  else if v = "OFFER" then some .OFFER
  else if v = "REJECTED" then some .REJECTED
  else none

/-- `normalizeStatus` of `app/api/jobs/route.ts` (used by `GET` and
`POST`): trim, uppercase, reject empty and `"ALL"`, then check enum
membership. -/
def normalizeStatusJobs (input : Option String) : Option JobStatus :=
  let v := upperStr (jsTrim (input.getD ""))
  if v = "" || v = "ALL" then none else statusOfString v

/-- `normalizeStatus` of `app/api/jobs/[id]/route.ts` (used by `PATCH`):
trim, uppercase, check enum membership. -/
def normalizeStatusId (input : Option String) : Option JobStatus :=
  statusOfString (upperStr (jsTrim (input.getD "")))

/-- `normalizeSort` of `app/api/jobs/route.ts`: keep one of the six
allowed sort keys, otherwise fall back to `"updated_desc"`. -/
def normalizeSort (input : Option String) : String :=
  let v := jsTrim (input.getD "")
  if v = "updated_desc" || v = "updated_asc" || v = "created_desc" ||
      v = "created_asc" || v = "company_asc" || v = "company_desc"
  then v else "updated_desc"

/-- The request body shape shared by `POST` and `PATCH`: each settable
field is absent, null, or a string. -/
structure ReqBody where
  company : Option (Option String) := none
  role : Option (Option String) := none
  status : Option (Option String) := none
  location : Option (Option String) := none
  url : Option (Option String) := none
  salary : Option (Option String) := none
  notes : Option (Option String) := none
  nextAction : Option (Option String) := none
  nextActionAt : Option (Option String) := none
deriving DecidableEq, Repr

/-- Route handler outcome together with its HTTP status code meaning:
`ok` = 200 `{ job }`, `okDeleted` = 200 `{ ok: true }`, `created` = 201,
`badRequest` = 400, `serverError` = 500. -/
inductive ApiResult
  | ok (job : Job)
  | okDeleted
  | created (job : Job)
  | badRequest (msg : String)
  | serverError (msg : String)
deriving DecidableEq, Repr

/-- The HTTP status code of each outcome, as set by `NextResponse.json`. -/
def ApiResult.statusCode : ApiResult → Nat
  | .ok _ => 200
  | .okDeleted => 200
  | .created _ => 201
  | .badRequest _ => 400
  | .serverError _ => 500

/-- `body.x ? String(body.x).trim() : null` for an optional string field. -/
def truthyTrim (w : Option String) : Option String :=
  match w with
  | some s => if s = "" then none else some (jsTrim s)
  | none => none

/-- `body.nextActionAt ? new Date(body.nextActionAt) : null`, the date
kept as its construction string. -/
def truthyDate (w : Option String) : Option String :=
  match w with
  | some s => if s = "" then none else some s
  | none => none

/-- The `data` object assembled by `PATCH`: `none` on a field means the
field was not added to `data` (left untouched by the store update). -/
structure PatchData where
  company : Option String
  role : Option String
  status : Option JobStatus
  location : Option (Option String)
  url : Option (Option String)
  salary : Option (Option String)
  notes : Option (Option String)
  nextAction : Option (Option String)
  nextActionAt : Option (Option String)
deriving DecidableEq, Repr

/-- The `if (body.x !== undefined) data.x = ...` block of `PATCH`. -/
def buildPatchData (b : ReqBody) : PatchData where
  company := b.company.map (fun w => jsTrim (jsStrN w))
  role := b.role.map (fun w => jsTrim (jsStrN w))
  status := b.status.bind (fun w => normalizeStatusId (some (jsStrN w)))
  location := b.location.map truthyTrim
  url := b.url.map truthyTrim
  salary := b.salary.map truthyTrim
  notes := b.notes.map truthyTrim
  nextAction := b.nextAction.map truthyTrim
  nextActionAt := b.nextActionAt.map truthyDate

/-- Apply an assembled `data` object to a stored row, refreshing
`updatedAt` (Prisma's `@updatedAt`). -/
def applyPatch (d : PatchData) (j : Job) (now : Nat) : Job where
  id := j.id
  company := d.company.getD j.company
  role := d.role.getD j.role
  status := d.status.getD j.status
  location := d.location.getD j.location
  url := d.url.getD j.url
  salary := d.salary.getD j.salary
  notes := d.notes.getD j.notes
  nextAction := d.nextAction.getD j.nextAction
  nextActionAt := d.nextActionAt.getD j.nextActionAt
  createdAt := j.createdAt
  updatedAt := now

/-- `prisma.job.findFirst`-style lookup by id over the table. -/
def findJob (store : List Job) (id : String) : Option Job :=
  store.find? (fun j => j.id = id)

/-- `prisma.job.update({ where: { id }, data })`: `none` when the id is
missing (Prisma throws), otherwise the updated row and the new table. -/
def storeUpdate (store : List Job) (id : String) (d : PatchData) (now : Nat) :
    Option (Job × List Job) :=
  match findJob store id with
  | none => none
  | some j =>
    let j2 := applyPatch d j now
    some (j2, store.map (fun x => if x.id = id then j2 else x))

/-- The `PATCH /api/jobs/[id]` handler.  A store failure (including the
unknown-id case, where `prisma.job.update` throws) is caught and turned
into a 500 response. -/
def handlePATCH (store : List Job) (id : String) (body : ReqBody) (now : Nat) :
    ApiResult × List Job :=
  if id = "" then (.badRequest "Missing job id", store)
  else
    let d := buildPatchData body
    if d.company = some "" then (.badRequest "Company cannot be empty", store)
    else if d.role = some "" then (.badRequest "Role cannot be empty", store)
    else
      match storeUpdate store id d now with
      | some (job, store2) => (.ok job, store2)
      | none => (.serverError "Failed to update job", store)

/-- The `DELETE /api/jobs/[id]` handler.  `prisma.job.delete` throws on an
unknown id; the catch-all converts that into a 500 response. -/
def handleDELETE (store : List Job) (id : String) : ApiResult × List Job :=
  if id = "" then (.badRequest "Missing job id", store)
  else if (findJob store id).isSome then
    (.okDeleted, store.filter (fun j => !(j.id = id : Bool)))
  else (.serverError "Failed to delete job", store)

/-- The row inserted by `prisma.job.create` in the `POST` handler. -/
def postJob (body : ReqBody) (newId : String) (now : Nat) : Job where
  id := newId
  company := jsTrim (jsStr body.company)
  role := jsTrim (jsStr body.role)
  status := (normalizeStatusJobs (body.status.getD none)).getD JobStatus.SAVED
  location := truthyTrim (body.location.getD none)
  url := truthyTrim (body.url.getD none)
  salary := truthyTrim (body.salary.getD none)
  notes := truthyTrim (body.notes.getD none)
  nextAction := truthyTrim (body.nextAction.getD none)
  nextActionAt := truthyDate (body.nextActionAt.getD none)
  createdAt := now
  updatedAt := now

/-- The `POST /api/jobs` handler. -/
def handlePOST (store : List Job) (body : ReqBody) (newId : String) (now : Nat) :
    ApiResult × List Job :=
  let company := jsTrim (jsStr body.company)
  let role := jsTrim (jsStr body.role)
  if company = "" || role = "" then
    (.badRequest "Company and role are required", store)
  else
    let job := postJob body newId now
    (.created job, store ++ [job])

/-- Starts-with test on character lists. -/
def charsStart : List Char → List Char → Bool
  | [], _ => true
  | _ :: _, [] => false
  | a :: as, b :: bs => a = b && charsStart as bs

/-- Substring test on character lists (`needle` occurs in `hay`). -/
def charsSub (needle : List Char) : List Char → Bool
  | [] => charsStart needle []
  | c :: t => charsStart needle (c :: t) || charsSub needle t

/-- Prisma `contains` with `mode: "insensitive"`: case-insensitive
substring containment. -/
def containsCI (hay q : String) : Bool := charsSub (lowerChars q) (lowerChars hay)

/-- `contains` on a nullable column: a null value never matches. -/
def optContainsCI (o : Option String) (q : String) : Bool :=
  match o with
  | some s => containsCI s q
  | none => false

/-- The `OR` clause of the `GET` where-filter: `company`, `role`, `notes`
or `nextAction` contains `q` case-insensitively. -/
def matchesQ (q : String) (j : Job) : Bool :=
  containsCI j.company q || containsCI j.role q ||
    optContainsCI j.notes q || optContainsCI j.nextAction q

/-- The six `orderBy` shapes the `GET` handler can select. -/
inductive OrderBy
  | updatedDesc
  | updatedAsc
  | createdDesc
  | createdAsc
  | companyAsc
  | companyDesc
deriving DecidableEq, Repr

/-- The conditional chain choosing `orderBy` from the sort key; every
unmatched key (including `"updated_desc"` itself) takes the final
`updatedAt desc` branch. -/
def orderByOfSort (s : String) : OrderBy :=
  if s = "updated_asc" then .updatedAsc
  else if s = "created_desc" then .createdDesc
  else if s = "created_asc" then .createdAsc
  else if s = "company_asc" then .companyAsc
  else if s = "company_desc" then .companyDesc
  else .updatedDesc

/-- Row comparison for each `orderBy` shape. -/
def jobLE : OrderBy → Job → Job → Bool
  | .updatedDesc, a, b => decide (b.updatedAt ≤ a.updatedAt)
  | .updatedAsc, a, b => decide (a.updatedAt ≤ b.updatedAt)
  | .createdDesc, a, b => decide (b.createdAt ≤ a.createdAt)
  | .createdAsc, a, b => decide (a.createdAt ≤ b.createdAt)
  | .companyAsc, a, b => decide (a.company ≤ b.company)
  | .companyDesc, a, b => decide (b.company ≤ a.company)

/-- Insert a row into a sorted list of rows. -/
def insertSorted (le : Job → Job → Bool) (x : Job) : List Job → List Job
  | [] => [x]
  | y :: ys => if le x y then x :: y :: ys else y :: insertSorted le x ys

/-- Sort the result set by the chosen comparison (`findMany`'s
`orderBy`). -/
def sortJobs (le : Job → Job → Bool) : List Job → List Job
  | [] => []
  | x :: xs => insertSorted le x (sortJobs le xs)

/-- The where-filter of `GET`: status restriction (when a status was
recognized) and free-text restriction (when `q` is non-empty). -/
def getFilter (status : Option JobStatus) (q : String) (j : Job) : Bool :=
  (match status with
   | some st => decide (j.status = st)
   | none => true) &&
  (q = "" || matchesQ q j)

/-- The `GET /api/jobs` handler: reads the query parameters, filters and
sorts the table, and returns the result set together with the (unchanged)
table — `findMany` performs no writes. -/
def handleGET (store : List Job) (qP stP sortP : Option String) :
    List Job × List Job :=
  let q := jsTrim (qP.getD "")
  let status := normalizeStatusJobs stP
  let sort := normalizeSort sortP
  (sortJobs (jobLE (orderByOfSort sort)) (store.filter (getFilter status q)), store)

/-- The visual kinds a toast notification can have. -/
inductive ToastKind
  | success
  | danger
  | warning
  | info
deriving DecidableEq, Repr

/-- A toast notification (the random `id` and the dismiss timer are
presentation detail and not modelled). -/
structure ToastMsg where
  kind : ToastKind
  title : String
  message : String
deriving DecidableEq, Repr

/-- `pushToast`: prepend the new toast and keep at most four
(`[newToast, ...prev].slice(0, 4)`). -/
def pushToast (toasts : List ToastMsg) (k : ToastKind) (t m : String) :
    List ToastMsg :=
  (ToastMsg.mk k t m :: toasts).take 4

/-- The kind of the most recent toast, if any. -/
def headKind (toasts : List ToastMsg) : Option ToastKind :=
  toasts.head?.map (fun t => t.kind)

/-- The client state relevant to the stage-move path: the loaded job list
and the toast stack. -/
structure ClientState where
  jobs : List Job
  toasts : List ToastMsg
deriving DecidableEq, Repr

/-- The string the client interpolates for `Moved to ${newStatus}.`. -/
def statusName : JobStatus → String
  | .SAVED => "SAVED"
  | .APPLIED => "APPLIED"
  | .INTERVIEW => "INTERVIEW"
  | .OFFER => "OFFER"
  | .REJECTED => "REJECTED"

/-- The optimistic `setJobs` of `moveJob`: give the dragged id the new
stage, leave every other card as it is. -/
def setStage (jobs : List Job) (id : String) (st : JobStatus) : List Job :=
  jobs.map (fun j => if j.id = id then { j with status := st } else j)

/-- `moveJob` of the page component, parametrized by whether the `PATCH`
round trip succeeds: returns the intermediate state (after the optimistic
update, before the response arrives) and the final state (after the
response is handled). -/
def moveJob (s : ClientState) (id : String) (st : JobStatus) (serverOk : Bool) :
    ClientState × ClientState :=
  let prev := s.jobs
  let inter : ClientState := { s with jobs := setStage s.jobs id st }
  let final : ClientState :=
    if serverOk then
      { inter with
        toasts := pushToast inter.toasts .success "Updated"
          ("Moved to " ++ statusName st ++ ".") }
    else
      { jobs := prev,
        toasts := pushToast inter.toasts .danger "Failed"
          "Could not move job. Please try again." }
  (inter, final)

/-- The per-status counters of the `stats` memo. -/
structure StatusCounts where
  saved : Nat
  applied : Nat
  interview : Nat
  offer : Nat
  rejected : Nat
deriving DecidableEq, Repr

/-- One step of `for (const j of jobs) counts[j.status]++`. -/
def bumpCount (c : StatusCounts) : JobStatus → StatusCounts
  | .SAVED => { c with saved := c.saved + 1 }
  | .APPLIED => { c with applied := c.applied + 1 }
  | .INTERVIEW => { c with interview := c.interview + 1 }
  | .OFFER => { c with offer := c.offer + 1 }
  | .REJECTED => { c with rejected := c.rejected + 1 }

/-- The counting loop of the `stats` memo. -/
def countsOf (jobs : List Job) : StatusCounts :=
  jobs.foldl (fun c j => bumpCount c j.status) ⟨0, 0, 0, 0, 0⟩

/-- `Math.round` on the exact value: nearest integer, ties toward
positive infinity. -/
def jsRound (x : ℚ) : ℤ := ⌊x + 1 / 2⌋

/-- The derived statistics of the `stats` memo. -/
structure Stats where
  counts : StatusCounts
  total : Nat
  interviewRate : ℤ
deriving DecidableEq, Repr

/-- The `stats` memo: per-status counts, total, and the interview rate
`applied > 0 ? Math.round((interview / applied) * 100) : 0`. -/
def statsOf (jobs : List Job) : Stats :=
  let counts := countsOf jobs
  let applied := counts.applied
  let interview := counts.interview
  let rate : ℤ :=
    if applied > 0 then jsRound ((interview : ℚ) / (applied : ℚ) * 100) else 0
  { counts := counts, total := jobs.length, interviewRate := rate }

/-! ### Helper lemmas -/

theorem mem_insertSorted (le : Job → Job → Bool) (x y : Job) (l : List Job) :
    y ∈ insertSorted le x l ↔ y = x ∨ y ∈ l := by
  induction l with
  | nil => simp [insertSorted]
  | cons a t ih =>
    simp only [insertSorted]
    split
    · simp
    · simp [ih]
      tauto

theorem mem_sortJobs (le : Job → Job → Bool) (y : Job) (l : List Job) :
    y ∈ sortJobs le l ↔ y ∈ l := by
  induction l with
  | nil => simp [sortJobs]
  | cons a t ih => simp [sortJobs, mem_insertSorted, ih]

theorem handlePATCH_ok_inv {store : List Job} {id : String} {body : ReqBody}
    {now : Nat} {job : Job} {store2 : List Job}
    (h : handlePATCH store id body now = (.ok job, store2)) :
    id ≠ "" ∧ (buildPatchData body).company ≠ some "" ∧
      (buildPatchData body).role ≠ some "" ∧
      ∃ j, findJob store id = some j ∧
        job = applyPatch (buildPatchData body) j now ∧
        store2 = store.map (fun x =>
          if x.id = id then applyPatch (buildPatchData body) j now else x) := by
  unfold handlePATCH at h
  by_cases h1 : id = ""
  · simp [h1] at h
  · rw [if_neg h1] at h
    simp only at h
    by_cases h2 : (buildPatchData body).company = some ""
    · simp [h2] at h
    · rw [if_neg h2] at h
      by_cases h3 : (buildPatchData body).role = some ""
      · simp [h3] at h
      · rw [if_neg h3] at h
        cases hs : storeUpdate store id (buildPatchData body) now with
        | none => rw [hs] at h; simp at h
        | some p =>
          rw [hs] at h
          obtain ⟨j2, st2⟩ := p
          simp only [Prod.mk.injEq, ApiResult.ok.injEq] at h
          unfold storeUpdate at hs
          cases hf : findJob store id with
          | none => rw [hf] at hs; simp at hs
          | some j =>
            rw [hf] at hs
            simp only [Option.some.injEq, Prod.mk.injEq] at hs
            refine ⟨h1, h2, h3, j, rfl, ?_, ?_⟩
            · rw [← h.1, ← hs.1]
            · rw [← h.2, ← hs.2]

theorem handleDELETE_missing {store : List Job} {id : String}
    (h1 : id ≠ "") (h2 : findJob store id = none) :
    handleDELETE store id = (.serverError "Failed to delete job", store) := by
  unfold handleDELETE
  rw [if_neg h1, h2]
  simp

theorem handleDELETE_ok_inv {store : List Job} {id : String} {store2 : List Job}
    (h : handleDELETE store id = (.okDeleted, store2)) :
    store2 = store.filter (fun j => !(j.id = id : Bool)) := by
  unfold handleDELETE at h
  by_cases h1 : id = ""
  · simp [h1] at h
  · rw [if_neg h1] at h
    by_cases h2 : (findJob store id).isSome
    · rw [if_pos h2] at h
      exact (congrArg Prod.snd h).symm
    · rw [if_neg h2] at h
      simp at h

theorem findJob_filter_self (store : List Job) (id : String) :
    findJob (store.filter (fun j => !(j.id = id : Bool))) id = none := by
  unfold findJob
  rw [List.find?_eq_none]
  intro j hj
  have := (List.mem_filter.mp hj).2
  simpa using this

theorem bumpCount_applied (c : StatusCounts) (st : JobStatus) :
    (bumpCount c st).applied =
      c.applied + (if st = JobStatus.APPLIED then 1 else 0) := by
  cases st <;> simp [bumpCount]

theorem bumpCount_interview (c : StatusCounts) (st : JobStatus) :
    (bumpCount c st).interview =
      c.interview + (if st = JobStatus.INTERVIEW then 1 else 0) := by
  cases st <;> simp [bumpCount]

theorem foldl_counts_applied (jobs : List Job) : ∀ c : StatusCounts,
    (jobs.foldl (fun c j => bumpCount c j.status) c).applied =
      c.applied +
        (jobs.filter (fun j => decide (j.status = JobStatus.APPLIED))).length := by
  induction jobs with
  | nil => simp
  | cons j t ih =>
    intro c
    simp only [List.foldl_cons, List.filter_cons]
    rw [ih, bumpCount_applied]
    by_cases hj : j.status = JobStatus.APPLIED <;> simp [hj] <;> omega

theorem foldl_counts_interview (jobs : List Job) : ∀ c : StatusCounts,
    (jobs.foldl (fun c j => bumpCount c j.status) c).interview =
      c.interview +
        (jobs.filter (fun j => decide (j.status = JobStatus.INTERVIEW))).length := by
  induction jobs with
  | nil => simp
  | cons j t ih =>
    intro c
    simp only [List.foldl_cons, List.filter_cons]
    rw [ih, bumpCount_interview]
    by_cases hj : j.status = JobStatus.INTERVIEW <;> simp [hj] <;> omega

theorem countsOf_applied (jobs : List Job) :
    (countsOf jobs).applied =
      (jobs.filter (fun j => decide (j.status = JobStatus.APPLIED))).length := by
  unfold countsOf
  rw [foldl_counts_applied]
  simp

theorem countsOf_interview (jobs : List Job) :
    (countsOf jobs).interview =
      (jobs.filter (fun j => decide (j.status = JobStatus.INTERVIEW))).length := by
  unfold countsOf
  rw [foldl_counts_interview]
  simp

theorem statusOfString_some_ne {v : String} {st : JobStatus}
    (h : statusOfString v = some st) : v ≠ "" ∧ v ≠ "ALL" := by
  unfold statusOfString at h
  split_ifs at h with h1 h2 h3 h4 h5 <;>
    first
      | (subst h1; exact ⟨by decide, by decide⟩)
      | (subst h2; exact ⟨by decide, by decide⟩)
      | (subst h3; exact ⟨by decide, by decide⟩)
      | (subst h4; exact ⟨by decide, by decide⟩)
      | (subst h5; exact ⟨by decide, by decide⟩)
      | exact absurd h (by simp)

theorem normalizeStatusJobs_eq_statusOf (input : Option String) :
    normalizeStatusJobs input =
      if upperStr (jsTrim (input.getD "")) = "" ∨
          upperStr (jsTrim (input.getD "")) = "ALL" then none
      else statusOfString (upperStr (jsTrim (input.getD ""))) := by
  unfold normalizeStatusJobs
  split_ifs with h1 h2 <;> simp_all

theorem normalizeStatusJobs_of_some {s : String} {st : JobStatus}
    (h : statusOfString (upperStr (jsTrim s)) = some st) :
    normalizeStatusJobs (some s) = some st := by
  have hne := statusOfString_some_ne h
  rw [normalizeStatusJobs_eq_statusOf]
  simp only [Option.getD_some]
  rw [if_neg (by tauto)]
  exact h

theorem normalizeStatusJobs_of_none {input : Option String}
    (h : statusOfString (upperStr (jsTrim (input.getD ""))) = none) :
    normalizeStatusJobs input = none := by
  rw [normalizeStatusJobs_eq_statusOf]
  split_ifs <;> simp [h]

/-! ### Concrete fixtures used by witnesses and counterexamples -/

/-- A sample stored row. -/
def jA : Job :=
  { id := "a", company := "Acme", role := "Engineer", status := JobStatus.SAVED,
    location := none, url := none, salary := none, notes := none,
    nextAction := none, nextActionAt := none, createdAt := 1, updatedAt := 1 }

/-- A sample create payload. -/
def bodyA : ReqBody :=
  { company := some (some " Acme "), role := some (some "Eng"),
    status := some (some "bogus") }

/-- A sample partial-update payload: new company, cleared notes, `role`
and all other fields omitted. -/
def bodyB : ReqBody :=
  { company := some (some " NewCo "), notes := some (some "") }

/-- The row `bodyB` produces from `jA` at time 5. -/
def jobB : Job :=
  { jA with company := "NewCo", notes := none, updatedAt := 5 }

/-! ### Claims -/

/-- C9: for every in-memory job list the derived interview rate is 0 when
the count of APPLIED jobs is 0 and otherwise equals
`round(interview_count / applied_count * 100)` (JS `Math.round`, ties
toward positive infinity), computed purely from the current list. -/
theorem interview_rate_formula (jobs : List Job) :
    (statsOf jobs).interviewRate =
      if (jobs.filter (fun j => decide (j.status = JobStatus.APPLIED))).length = 0
      then 0
      else jsRound
        (((jobs.filter (fun j => decide (j.status = JobStatus.INTERVIEW))).length : ℚ) /
          ((jobs.filter (fun j => decide (j.status = JobStatus.APPLIED))).length : ℚ)
          * 100) := by
  simp only [statsOf, countsOf_applied, countsOf_interview]
  by_cases h :
      (jobs.filter (fun j => decide (j.status = JobStatus.APPLIED))).length = 0
  · simp [h]
  · rw [if_neg h, if_pos (Nat.pos_of_ne_zero h)]

/-- C5: on a stage-move drop the local list immediately shows the dropped
record with the new stage before the server call resolves; on server
failure the list is restored exactly to the pre-move snapshot and a danger
toast is emitted; on success a success toast is emitted and the record
keeps the new stage. -/
theorem optimistic_move_rollback (s : ClientState) (id : String) (st : JobStatus)
    (j : Job) (hj : j ∈ s.jobs) (hid : j.id = id) :
    (∀ ok : Bool, { j with status := st } ∈ (moveJob s id st ok).1.jobs)
    ∧ (moveJob s id st false).2.jobs = s.jobs
    ∧ headKind (moveJob s id st false).2.toasts = some ToastKind.danger
    ∧ (moveJob s id st true).2.jobs = (moveJob s id st true).1.jobs
    ∧ { j with status := st } ∈ (moveJob s id st true).2.jobs
    ∧ headKind (moveJob s id st true).2.toasts = some ToastKind.success := by
  have hmem : ∀ ok : Bool, { j with status := st } ∈ (moveJob s id st ok).1.jobs := by
    intro ok
    simp only [moveJob, setStage]
    have := List.mem_map_of_mem
      (fun x => if x.id = id then { x with status := st } else x) hj
    simpa [hid] using this
  refine ⟨hmem, ?_, ?_, ?_, ?_, ?_⟩
  · simp [moveJob]
  · simp [moveJob, pushToast, headKind]
  · simp [moveJob]
  · have := hmem true
    simpa [moveJob] using this
  · simp [moveJob, pushToast, headKind]

/-- C10: status inputs are normalized by trimming and uppercasing before
the enum check, so every input whose trimmed uppercasing is one of the
five enum values is accepted as that value — by the `PATCH` normalizer
(`normalizeStatusId`, used by Update) and by the jobs-route normalizer
(`normalizeStatusJobs`, used by Create and the List status filter). -/
theorem status_normalization_case_insensitive (s : String) (st : JobStatus)
    (h : statusOfString (upperStr (jsTrim s)) = some st) :
    normalizeStatusId (some s) = some st
    ∧ normalizeStatusJobs (some s) = some st := by
  constructor
  · unfold normalizeStatusId
    simpa using h
  · exact normalizeStatusJobs_of_some h

/-- Witness for C10 at the inputs "applied" and " Applied ". -/
theorem status_normalization_case_insensitive_witness :
    normalizeStatusId (some " Applied ") = some JobStatus.APPLIED
    ∧ normalizeStatusJobs (some "applied") = some JobStatus.APPLIED :=
  ⟨(status_normalization_case_insensitive " Applied " JobStatus.APPLIED (by decide)).1,
   (status_normalization_case_insensitive "applied" JobStatus.APPLIED (by decide)).2⟩

/-- Witness for C5: one SAVED card dropped onto APPLIED with a failing
server call reverts to the snapshot and emits a danger toast. -/
theorem optimistic_move_rollback_witness :
    ({ jA with status := JobStatus.APPLIED } ∈
      (moveJob { jobs := [jA], toasts := [] } "a" JobStatus.APPLIED false).1.jobs)
    ∧ (moveJob { jobs := [jA], toasts := [] } "a" JobStatus.APPLIED false).2.jobs = [jA]
    ∧ headKind (moveJob { jobs := [jA], toasts := [] } "a" JobStatus.APPLIED false).2.toasts
        = some ToastKind.danger := by
  have h := optimistic_move_rollback { jobs := [jA], toasts := [] } "a"
    JobStatus.APPLIED jA (by simp) (by decide)
  exact ⟨h.1 false, h.2.1, h.2.2.1⟩

/-- C8: an Update carrying an unrecognized status value behaves exactly
like the same Update with the status field omitted (no error is raised),
and on success the stored status is unchanged. -/
theorem patch_unrecognized_status_ignored (store : List Job) (id : String)
    (body : ReqBody) (now : Nat) (w : Option String)
    (hw : body.status = some w)
    (hn : statusOfString (upperStr (jsTrim (jsStrN w))) = none) :
    handlePATCH store id body now = handlePATCH store id { body with status := none } now
    ∧ (∀ (j job : Job) (store2 : List Job), findJob store id = some j →
        handlePATCH store id body now = (.ok job, store2) → job.status = j.status) := by
  have hd : buildPatchData body = buildPatchData { body with status := none } := by
    unfold buildPatchData
    simp [hw, normalizeStatusId, hn]
  constructor
  · unfold handlePATCH
    rw [hd]
  · intro j job store2 hfind hok
    obtain ⟨-, -, -, j', hfind', hjob, -⟩ := handlePATCH_ok_inv hok
    rw [hfind] at hfind'
    injection hfind' with hjj
    subst hjj
    subst hjob
    simp [applyPatch, buildPatchData, hw, normalizeStatusId, hn]

/-- Witness for C8 at a concrete store and the status value "bogus". -/
theorem patch_unrecognized_status_ignored_witness :
    handlePATCH [jA] "a" { status := some (some "bogus") } 5
      = handlePATCH [jA] "a" ({} : ReqBody) 5
    ∧ ({ jA with updatedAt := 5 } : Job).status = jA.status := by
  have h := patch_unrecognized_status_ignored [jA] "a"
    { status := some (some "bogus") } 5 (some "bogus") rfl (by decide)
  refine ⟨h.1.trans (by decide), ?_⟩
  exact h.2 jA { jA with updatedAt := 5 } [{ jA with updatedAt := 5 }]
    (by decide) (by decide)

/-- C2: on a successful Update of an existing record, every field omitted
from the payload is unchanged; every optional field present with an
empty or null value is cleared to null; supplied string fields are
trimmed of surrounding whitespace. -/
theorem patch_partial_update_semantics (store : List Job) (id : String)
    (body : ReqBody) (now : Nat) (j job : Job) (store2 : List Job)
    (hfind : findJob store id = some j)
    (h : handlePATCH store id body now = (.ok job, store2)) :
    (body.company = none → job.company = j.company)
    ∧ (body.role = none → job.role = j.role)
    ∧ (body.status = none → job.status = j.status)
    ∧ (body.location = none → job.location = j.location)
    ∧ (body.url = none → job.url = j.url)
    ∧ (body.salary = none → job.salary = j.salary)
    ∧ (body.notes = none → job.notes = j.notes)
    ∧ (body.nextAction = none → job.nextAction = j.nextAction)
    ∧ (body.nextActionAt = none → job.nextActionAt = j.nextActionAt)
    ∧ (body.location = some none ∨ body.location = some (some "") → job.location = none)
    ∧ (body.url = some none ∨ body.url = some (some "") → job.url = none)
    ∧ (body.salary = some none ∨ body.salary = some (some "") → job.salary = none)
    ∧ (body.notes = some none ∨ body.notes = some (some "") → job.notes = none)
    ∧ (body.nextAction = some none ∨ body.nextAction = some (some "") →
        job.nextAction = none)
    ∧ (body.nextActionAt = some none ∨ body.nextActionAt = some (some "") →
        job.nextActionAt = none)
    ∧ (∀ v, body.company = some v → job.company = jsTrim (jsStrN v))
    ∧ (∀ v, body.role = some v → job.role = jsTrim (jsStrN v))
    ∧ (∀ s2, body.location = some (some s2) → s2 ≠ "" → job.location = some (jsTrim s2))
    ∧ (∀ s2, body.url = some (some s2) → s2 ≠ "" → job.url = some (jsTrim s2))
    ∧ (∀ s2, body.salary = some (some s2) → s2 ≠ "" → job.salary = some (jsTrim s2))
    ∧ (∀ s2, body.notes = some (some s2) → s2 ≠ "" → job.notes = some (jsTrim s2))
    ∧ (∀ s2, body.nextAction = some (some s2) → s2 ≠ "" →
        job.nextAction = some (jsTrim s2)) := by
  obtain ⟨-, -, -, j', hfind', hjob, -⟩ := handlePATCH_ok_inv h
  rw [hfind] at hfind'
  injection hfind' with hjj
  subst hjj
  subst hjob
  refine ⟨fun hx => ?_, fun hx => ?_, fun hx => ?_, fun hx => ?_, fun hx => ?_,
    fun hx => ?_, fun hx => ?_, fun hx => ?_, fun hx => ?_,
    fun hx => ?_, fun hx => ?_, fun hx => ?_, fun hx => ?_, fun hx => ?_, fun hx => ?_,
    fun v hv => ?_, fun v hv => ?_,
    fun s2 hs2 hne => ?_, fun s2 hs2 hne => ?_, fun s2 hs2 hne => ?_,
    fun s2 hs2 hne => ?_, fun s2 hs2 hne => ?_⟩ <;>
  first
    | (rcases hx with hx | hx <;>
        simp [applyPatch, buildPatchData, hx, truthyTrim, truthyDate] <;> done)
    | (simp [applyPatch, buildPatchData, hx, truthyTrim, truthyDate]; done)
    | (simp [applyPatch, buildPatchData, hv]; done)
    | (simp [applyPatch, buildPatchData, hs2, hne, truthyTrim, truthyDate]; done)

/-- Witness for C2: updating `jA` with a new company, cleared notes and
everything else omitted trims the company, nulls the notes and keeps the
role. -/
theorem patch_partial_update_semantics_witness :
    jobB.role = jA.role
    ∧ jobB.notes = none
    ∧ jobB.company = jsTrim (jsStrN (some " NewCo ")) := by
  have h := patch_partial_update_semantics [jA] "a" bodyB 5 jA jobB [jobB]
    (by decide) (by decide)
  obtain ⟨-, h2, -, -, -, -, -, -, -, -, -, -, h13, -, -, h16, -⟩ := h
  exact ⟨h2 rfl, h13 (Or.inr rfl), h16 (some " NewCo ") rfl⟩

theorem handlePOST_created_inv {store : List Job} {body : ReqBody}
    {newId : String} {now : Nat} {job : Job} {store2 : List Job}
    (h : handlePOST store body newId now = (.created job, store2)) :
    jsTrim (jsStr body.company) ≠ "" ∧ jsTrim (jsStr body.role) ≠ ""
    ∧ job = postJob body newId now ∧ store2 = store ++ [postJob body newId now] := by
  unfold handlePOST at h
  by_cases h1 : jsTrim (jsStr body.company) = ""
  · simp [h1] at h
  · by_cases h2 : jsTrim (jsStr body.role) = ""
    · simp [h1, h2] at h
    · simp only [h1, h2, decide_False, Bool.or_self, Bool.false_eq_true,
        if_false, Prod.mk.injEq, ApiResult.created.injEq] at h
      exact ⟨h1, h2, h.1.symm, h.2.symm⟩

/-- C6: `company` and `role` are non-empty after every successful Create
or Update: a created row has both non-empty; a successful Update of a row
with both non-empty keeps both non-empty; and an Update whose supplied
company (resp. role) trims to empty is rejected with a 400 validation
response, leaving the store unchanged. -/
theorem company_role_nonempty_invariant :
    (∀ (store : List Job) (body : ReqBody) (newId : String) (now : Nat)
        (job : Job) (store2 : List Job),
        handlePOST store body newId now = (.created job, store2) →
        job.company ≠ "" ∧ job.role ≠ "")
    ∧ (∀ (store : List Job) (id : String) (body : ReqBody) (now : Nat)
        (j job : Job) (store2 : List Job),
        findJob store id = some j → j.company ≠ "" → j.role ≠ "" →
        handlePATCH store id body now = (.ok job, store2) →
        job.company ≠ "" ∧ job.role ≠ "")
    ∧ (∀ (store : List Job) (id : String) (body : ReqBody) (now : Nat)
        (w : Option String),
        body.company = some w → jsTrim (jsStrN w) = "" →
        (handlePATCH store id body now).1.statusCode = 400 ∧
          (handlePATCH store id body now).2 = store)
    ∧ (∀ (store : List Job) (id : String) (body : ReqBody) (now : Nat)
        (w : Option String),
        body.role = some w → jsTrim (jsStrN w) = "" →
        (handlePATCH store id body now).1.statusCode = 400 ∧
          (handlePATCH store id body now).2 = store) := by
  refine ⟨?_, ?_, ?_, ?_⟩
  · intro store body newId now job store2 h
    obtain ⟨h1, h2, hjob, -⟩ := handlePOST_created_inv h
    subst hjob
    exact ⟨h1, h2⟩
  · intro store id body now j job store2 hfind hc hr h
    obtain ⟨-, hcne, hrne, j', hfind', hjob, -⟩ := handlePATCH_ok_inv h
    rw [hfind] at hfind'
    injection hfind' with hjj
    subst hjj
    subst hjob
    constructor
    · show (buildPatchData body).company.getD j.company ≠ ""
      cases hdc : (buildPatchData body).company with
      | none => simpa using hc
      | some s =>
        intro hcontra
        simp only [Option.getD_some] at hcontra
        exact hcne (hdc.trans (by rw [hcontra]))
    · show (buildPatchData body).role.getD j.role ≠ ""
      cases hdr : (buildPatchData body).role with
      | none => simpa using hr
      | some s =>
        intro hcontra
        simp only [Option.getD_some] at hcontra
        exact hrne (hdr.trans (by rw [hcontra]))
  · intro store id body now w hw hempty
    have hdc : (buildPatchData body).company = some "" := by
      simp [buildPatchData, hw, hempty]
    unfold handlePATCH
    by_cases h1 : id = ""
    · simp [h1, ApiResult.statusCode]
    · simp [h1, hdc, ApiResult.statusCode]
  · intro store id body now w hw hempty
    have hdr : (buildPatchData body).role = some "" := by
      simp [buildPatchData, hw, hempty]
    unfold handlePATCH
    by_cases h1 : id = ""
    · simp [h1, ApiResult.statusCode]
    · by_cases h2 : (buildPatchData body).company = some ""
      · simp [h1, h2, ApiResult.statusCode]
      · simp [h1, h2, hdr, ApiResult.statusCode]

/-- Witness for C6: the row created from `bodyA` has non-empty company
and role, and an update supplying a whitespace-only company is rejected
with a 400 leaving the store unchanged. -/
theorem company_role_nonempty_invariant_witness :
    ((postJob bodyA "n1" 7).company ≠ "" ∧ (postJob bodyA "n1" 7).role ≠ "")
    ∧ (handlePATCH [jA] "a" { company := some (some "  ") } 5).1.statusCode = 400
    ∧ (handlePATCH [jA] "a" { company := some (some "  ") } 5).2 = [jA] := by
  have h := company_role_nonempty_invariant
  refine ⟨h.1 [] bodyA "n1" 7 (postJob bodyA "n1" 7) [postJob bodyA "n1" 7] (by decide), ?_, ?_⟩
  · exact (h.2.2.1 [jA] "a" { company := some (some "  ") } 5 (some "  ") rfl (by decide)).1
  · exact (h.2.2.1 [jA] "a" { company := some (some "  ") } 5 (some "  ") rfl (by decide)).2

/-- C4: Create succeeds (201, row appended) exactly when both company and
role are non-empty after trimming, failing with a 400 validation response
otherwise; and the created row's status is SAVED whenever the supplied
status is absent, null, or not recognized as an enum value after
normalization. -/
theorem create_validation_and_default_status (store : List Job) (body : ReqBody)
    (newId : String) (now : Nat) :
    ((jsTrim (jsStr body.company) = "" ∨ jsTrim (jsStr body.role) = "") →
      handlePOST store body newId now =
        (.badRequest "Company and role are required", store)
      ∧ (handlePOST store body newId now).1.statusCode = 400)
    ∧ (jsTrim (jsStr body.company) ≠ "" → jsTrim (jsStr body.role) ≠ "" →
      handlePOST store body newId now =
        (.created (postJob body newId now), store ++ [postJob body newId now])
      ∧ (handlePOST store body newId now).1.statusCode = 201)
    ∧ (statusOfString (upperStr (jsTrim (jsStr body.status))) = none →
      (postJob body newId now).status = JobStatus.SAVED) := by
  refine ⟨?_, ?_, ?_⟩
  · intro h
    unfold handlePOST
    rcases h with h | h <;> simp [h, ApiResult.statusCode]
  · intro h1 h2
    unfold handlePOST
    simp [h1, h2, ApiResult.statusCode]
  · intro h
    have : normalizeStatusJobs (body.status.getD none) = none := by
      apply normalizeStatusJobs_of_none
      have : (body.status.getD none).getD "" = jsStr body.status := rfl
      rw [this]
      exact h
    simp [postJob, this]

/-- Witness for C4: `bodyA` (unrecognized status "bogus") creates a row
with status SAVED, and a whitespace-only company is rejected with 400. -/
theorem create_validation_and_default_status_witness :
    handlePOST [] bodyA "n1" 7 = (.created (postJob bodyA "n1" 7), [postJob bodyA "n1" 7])
    ∧ (postJob bodyA "n1" 7).status = JobStatus.SAVED
    ∧ (handlePOST [] { company := some (some "  "), role := some (some "Eng") } "n1" 7).1.statusCode = 400 := by
  have h := create_validation_and_default_status [] bodyA "n1" 7
  have h2 := create_validation_and_default_status []
    { company := some (some "  "), role := some (some "Eng") } "n1" 7
  exact ⟨(h.2.1 (by decide) (by decide)).1, h.2.2 (by decide),
    (h2.1 (Or.inl (by decide))).2⟩

/-- Counterexample to C1: on a store holding only the row `jA` (id "a"),
an Update and a Delete with the unknown id "missing" fail with the
generic 500 server-error response, not a 404-class NotFoundError; and
after a successful Delete of "a", a second Delete of "a" also fails with
the 500 response. -/
theorem notfound_reported_500_counterexample :
    (handleDELETE [jA] "missing").1 = ApiResult.serverError "Failed to delete job"
    ∧ (handleDELETE [jA] "missing").1.statusCode = 500
    ∧ ¬ (handleDELETE [jA] "missing").1.statusCode = 404
    ∧ (handlePATCH [jA] "missing" {} 5).1 = ApiResult.serverError "Failed to update job"
    ∧ (handlePATCH [jA] "missing" {} 5).1.statusCode = 500
    ∧ ¬ (handlePATCH [jA] "missing" {} 5).1.statusCode = 404
    ∧ (handleDELETE [jA] "a").1 = ApiResult.okDeleted
    ∧ (handleDELETE (handleDELETE [jA] "a").2 "a").1
        = ApiResult.serverError "Failed to delete job"
    ∧ (handleDELETE (handleDELETE [jA] "a").2 "a").1.statusCode = 500 := by
  decide

/-- C1 amended: an Update or Delete on an id that does not exist in the
store fails, but the store's not-found error is swallowed by the route's
catch-all and reported as a generic 500 server-error response (never a
404-class NotFoundError); in particular, after a successful Delete, a
second Delete of the same id fails with that 500 response. -/
theorem unknown_id_update_delete_500 (store : List Job) (id : String)
    (body : ReqBody) (now : Nat) (hid : id ≠ "")
    (hmiss : findJob store id = none)
    (hc : (buildPatchData body).company ≠ some "")
    (hr : (buildPatchData body).role ≠ some "") :
    handlePATCH store id body now = (.serverError "Failed to update job", store)
    ∧ handleDELETE store id = (.serverError "Failed to delete job", store)
    ∧ (∀ store0 store2 : List Job, handleDELETE store0 id = (.okDeleted, store2) →
        handleDELETE store2 id = (.serverError "Failed to delete job", store2)) := by
  refine ⟨?_, handleDELETE_missing hid hmiss, ?_⟩
  · unfold handlePATCH
    rw [if_neg hid]
    simp only [if_neg hc, if_neg hr]
    unfold storeUpdate
    rw [hmiss]
  · intro store0 store2 hdel
    have h2 := handleDELETE_ok_inv hdel
    subst h2
    exact handleDELETE_missing hid (findJob_filter_self store0 id)

/-- Witness for the amended C1 at the concrete store `[jA]`. -/
theorem unknown_id_update_delete_500_witness :
    handlePATCH [jA] "missing" {} 5 = (.serverError "Failed to update job", [jA])
    ∧ handleDELETE [jA] "missing" = (.serverError "Failed to delete job", [jA])
    ∧ handleDELETE [] "a" = (.serverError "Failed to delete job", []) := by
  have h := unknown_id_update_delete_500 [jA] "missing" {} 5
    (by decide) (by decide) (by decide) (by decide)
  have h2 := unknown_id_update_delete_500 [] "a" {} 5
    (by decide) (by decide) (by decide) (by decide)
  exact ⟨h.1, h.2.1, h2.2.2 [jA] [] (by decide)⟩

/-- C3: for a List request with a non-empty (trimmed) query `q`, a record
is in the result iff it is in the store, its company, role, notes or
nextAction contains `q` as a case-insensitive substring, and — when the
status parameter normalizes to an enum value — it has that status; and
List performs no writes (the store component is returned unchanged). -/
theorem list_query_matching (store : List Job) (r : Job) (qs : String)
    (stP sortP : Option String) (hq : jsTrim qs ≠ "") :
    (r ∈ (handleGET store (some qs) stP sortP).1 ↔
      r ∈ store
      ∧ (containsCI r.company (jsTrim qs) = true
         ∨ containsCI r.role (jsTrim qs) = true
         ∨ optContainsCI r.notes (jsTrim qs) = true
         ∨ optContainsCI r.nextAction (jsTrim qs) = true)
      ∧ (match normalizeStatusJobs stP with
         | some st => r.status = st
         | none => True))
    ∧ (handleGET store (some qs) stP sortP).2 = store := by
  constructor
  · unfold handleGET
    simp only [Option.getD_some]
    rw [mem_sortJobs, List.mem_filter]
    cases hst : normalizeStatusJobs stP with
    | none =>
      simp [getFilter, matchesQ, hq]
      tauto
    | some st =>
      simp [getFilter, matchesQ, hq]
      tauto
  · rfl

/-- Witness for C3: searching `[jA]` for " acm " finds `jA` (its company
"Acme" contains "acm" case-insensitively) and leaves the store as is. -/
theorem list_query_matching_witness :
    jA ∈ (handleGET [jA] (some " acm ") none none).1
    ∧ (handleGET [jA] (some " acm ") none none).2 = [jA] := by
  have h := list_query_matching [jA] jA " acm " none none (by decide)
  refine ⟨h.1.mpr ⟨by decide, by decide, ?_⟩, h.2⟩
  rw [show normalizeStatusJobs none = none from by decide]
  trivial

/-- C7: a List status parameter that does not normalize to one of the
five enum values is ignored (the request behaves as if no status were
given), and a sort parameter outside the six allowed keys falls back to
`updated_desc` ordering; the handler is a total function of its query
parameters, so no malformed parameter makes it fail. -/
theorem list_malformed_params_ignored (store : List Job) (qP stP sortP : Option String) :
    (statusOfString (upperStr (jsTrim (stP.getD ""))) = none →
      handleGET store qP stP sortP = handleGET store qP none sortP)
    ∧ (jsTrim (sortP.getD "") ∉
        (["updated_desc", "updated_asc", "created_desc", "created_asc",
          "company_asc", "company_desc"] : List String) →
      handleGET store qP stP sortP = handleGET store qP stP (some "updated_desc")) := by
  constructor
  · intro h
    have h1 : normalizeStatusJobs stP = none := normalizeStatusJobs_of_none h
    have h2 : normalizeStatusJobs none = none := by decide
    unfold handleGET
    rw [h1, h2]
  · intro h
    have h1 : normalizeSort sortP = "updated_desc" := by
      simp only [normalizeSort]
      split_ifs with hcond
      · exfalso
        apply h
        simp only [Bool.or_eq_true, decide_eq_true_eq] at hcond
        simp only [List.mem_cons, List.not_mem_nil, or_false]
        tauto
      · rfl
    have h2 : normalizeSort (some "updated_desc") = "updated_desc" := by decide
    unfold handleGET
    rw [h1, h2]

/-- Witness for C7: the status value "bogus" is ignored and the sort
value "weird" behaves like "updated_desc" on the store `[jA]`. -/
theorem list_malformed_params_ignored_witness :
    handleGET [jA] none (some "bogus") none = handleGET [jA] none none none
    ∧ handleGET [jA] none (some "bogus") (some "weird")
        = handleGET [jA] none (some "bogus") (some "updated_desc") := by
  have h1 := list_malformed_params_ignored [jA] none (some "bogus") none
  have h2 := list_malformed_params_ignored [jA] none (some "bogus") (some "weird")
  exact ⟨h1.1 (by decide), h2.2 (by decide)⟩
